import Mathlib

/-!
Verification of the incremental document-annotation engine
(`src/plugin/syringe/index.ts`): the text-substitution engine, the tag
node tracker, the node classifier and the mutation pipeline are embedded
shallowly as Lean functions, and the behavioural claims about them are
settled as theorems.

Conventions of the embedding:
* the DOM is modelled by explicit state records (`DocState`, `ElemInfo`,
  `BodyState`); `innerText` / `innerHTML` / `textContent` of a tag
  container are collapsed into one `contentOf` field, and an element's
  `parentElement` into a `parentOf : Nat → Option Nat` map over element
  identities (the document node has identity 0);
* external collaborators (the `tagging` service's `fullKey`,
  `markImagesAndEmoji`, `removeImagesAndEmoji`, and the date-difference
  formatter `time.diff (ms, undefined, DateTime.hour)`) are passed as
  opaque function parameters;
* JavaScript truthiness of strings ("" is falsy) and of numbers
  (`NaN` and `0` are falsy) is translated explicitly at each use site;
* fallible operations return `Option`.
-/

set_option autoImplicit false

namespace EhSyringe

/-! ## Characters and digits -/

/-- Numeric value of a decimal digit character. -/
def digitVal (c : Char) : Nat := c.toNat - '0'.toNat

/-- JavaScript regex `\w` character class: `[A-Za-z0-9_]`. -/
def isWordChar (c : Char) : Bool := c.isAlphanum || c = '_'

/-- Two-digit field value from two digit characters. -/
def digitsVal2 (a b : Char) : Nat := digitVal a * 10 + digitVal b

/-- Four-digit field value from four digit characters. -/
def digitsVal4 (a b c d : Char) : Nat :=
  digitsVal2 a b * 100 + digitsVal2 c d

/-! ## Model of the host platform's `Date.parse` for the two shapes

The source calls `Date.parse(t + 'Z')` on matches of
`\d\d\d\d-\d\d-\d\d \d\d:\d\d` and `Date.parse(t + ' UTC')` on matches of
`\d\d \w{2,10} \d\d\d\d, \d\d:\d\d`.  Both are parsed by the host
JavaScript engine as UTC instants in epoch milliseconds (`NaN` when the
components are out of range or the month word is unknown).  We model the
component-validity check and the civil-calendar-to-epoch-day conversion
(Gregorian, proleptic). -/

/-- Gregorian leap-year test. -/
def isLeap (y : Nat) : Bool := (y % 4 == 0 && y % 100 != 0) || y % 400 == 0

/-- Number of days of month `m` in year `y`. -/
def daysInMonth (y m : Nat) : Nat :=
  if m = 2 then (if isLeap y then 29 else 28)
  else if m = 4 ∨ m = 6 ∨ m = 9 ∨ m = 11 then 30
  else 31

/-- Days from the epoch 1970-01-01 to the civil date `y-m-d`
(Howard Hinnant's `days_from_civil`, stated with floor division). -/
def daysFromCivil (y m d : Nat) : Int :=
  let y1 : Int := if m ≤ 2 then (y : Int) - 1 else (y : Int)
  let era : Int := Int.ediv y1 400
  let yoe : Int := y1 - era * 400
  let mp : Int := Int.emod ((m : Int) + 9) 12
  let doy : Int := Int.ediv (153 * mp + 2) 5 + (d : Int) - 1
  let doe : Int := yoe * 365 + Int.ediv yoe 4 - Int.ediv yoe 100 + doy
  era * 146097 + doe - 719468

/-- Model of the platform's `Date.parse` on a UTC timestamp given by
numeric components: `none` models `NaN` (components out of range),
otherwise the epoch-millisecond instant. -/
def parseInstant (y mo d hh mi : Nat) : Option Int :=
  if 1 ≤ mo ∧ mo ≤ 12 ∧ 1 ≤ d ∧ d ≤ daysInMonth y mo ∧ hh ≤ 23 ∧ mi ≤ 59 then
    some (daysFromCivil y mo d * 86400000 + (hh : Int) * 3600000 + (mi : Int) * 60000)
  else none

/-- Month-name table of the platform's legacy date parser: full English
month names and their three-letter abbreviations, matched
case-insensitively (the source's second timestamp regex carries the `i`
flag). -/
def monthNames : List (String × Nat) :=
  [("jan", 1), ("january", 1), ("feb", 2), ("february", 2),
   ("mar", 3), ("march", 3), ("apr", 4), ("april", 4),
   ("may", 5), ("jun", 6), ("june", 6), ("jul", 7), ("july", 7),
   ("aug", 8), ("august", 8), ("sep", 9), ("september", 9),
   ("oct", 10), ("october", 10), ("nov", 11), ("november", 11),
   ("dec", 12), ("december", 12)]

/-- Month number of a month word (case-insensitive), `none` when the word
is not an English month name or abbreviation. -/
def monthFromNameL (w : List Char) : Option Nat :=
  (monthNames.find? (fun p => p.1 = String.mk (w.map Char.toLower))).map (·.2)

/-! ## The two built-in date normalizers

`repText.replace(/\d\d\d\d-\d\d-\d\d \d\d:\d\d/g, cb)` and
`repText.replace(/\d\d \w{2,10} \d\d\d\d, \d\d:\d\d/gi, cb)` are embedded
as left-to-right scanners over the character list: at each position the
fixed shape is tried; on a match the callback's result is emitted and the
scan resumes after the match, otherwise the character is copied and the
scan advances one position.  This is exactly the global-replace semantics
of the two regexes (both shapes are deterministic: `\w{2,10}` can only
match the maximal word-character run, since the following pattern
character is a space). -/

/-- Shape test for `\d\d\d\d-\d\d-\d\d \d\d:\d\d` at the head of the
list; on success returns the 16 matched characters and the rest. -/
def matchShape1 (l : List Char) :
    Option (List Char × Nat × Nat × Nat × Nat × Nat × List Char) :=
  if (l.headD ' ').isDigit then
    match l with
    | a1 :: a2 :: a3 :: a4 :: '-' :: b1 :: b2 :: '-' :: d1 :: d2 :: ' ' ::
      h1 :: h2 :: ':' :: n1 :: n2 :: rest =>
      if a1.isDigit && a2.isDigit && a3.isDigit && a4.isDigit &&
         b1.isDigit && b2.isDigit && d1.isDigit && d2.isDigit &&
         h1.isDigit && h2.isDigit && n1.isDigit && n2.isDigit then
        some ([a1, a2, a3, a4, '-', b1, b2, '-', d1, d2, ' ', h1, h2, ':', n1, n2],
              digitsVal4 a1 a2 a3 a4, digitsVal2 b1 b2, digitsVal2 d1 d2,
              digitsVal2 h1 h2, digitsVal2 n1 n2, rest)
      else none
    | _ => none
  else none

/-- The callback of the first normalizer:
`t => { const date = Date.parse(t + 'Z'); if (!date) return t;
return time.diff(date, undefined, DateTime.hour); }`.
JavaScript `!date` is true both for `NaN` (modelled by `none`) and for
the number `0`, so the epoch instant is also returned unchanged. -/
def jsDateRepl1 (diff : Int → String) (m : List Char) (y mo d hh mi : Nat) : List Char :=
  match parseInstant y mo d hh mi with
  | none => m
  | some ms => if ms = 0 then m else (diff ms).toList

/-- Global-replace scan for the first normalizer; `fuel` is initialised
with the list length (each step consumes at least one character and one
unit of fuel, so the fuel never runs out on the initial call). -/
def scan1 (diff : Int → String) : Nat → List Char → List Char
  | 0, l => l
  | _ + 1, [] => []
  | fuel + 1, c :: cs =>
    match matchShape1 (c :: cs) with
    | some (m, y, mo, d, hh, mi, rest) =>
      jsDateRepl1 diff m y mo d hh mi ++ scan1 diff fuel rest
    | none => c :: scan1 diff fuel cs

/-- Length of the maximal `\w` prefix of a character list. -/
def wordRun : List Char → Nat
  | [] => 0
  | c :: cs => if isWordChar c then wordRun cs + 1 else 0

/-- Shape test for `\d\d \w{2,10} \d\d\d\d, \d\d:\d\d` at the head of the
list; on success returns the matched characters, the month word, the
numeric day/year/hour/minute components, and the rest. -/
def matchShape2 (l : List Char) :
    Option (List Char × List Char × Nat × Nat × Nat × Nat × List Char) :=
  if (l.headD ' ').isDigit then
    match l with
    | d1 :: d2 :: ' ' :: rest =>
      if d1.isDigit && d2.isDigit then
        let r := wordRun rest
        if 2 ≤ r ∧ r ≤ 10 then
          match rest.drop r with
          | ' ' :: y1 :: y2 :: y3 :: y4 :: ',' :: ' ' :: h1 :: h2 :: ':' :: n1 :: n2 :: rest2 =>
            if y1.isDigit && y2.isDigit && y3.isDigit && y4.isDigit &&
               h1.isDigit && h2.isDigit && n1.isDigit && n2.isDigit then
              some (d1 :: d2 :: ' ' :: (rest.take r ++
                      [' ', y1, y2, y3, y4, ',', ' ', h1, h2, ':', n1, n2]),
                    rest.take r,
                    digitsVal2 d1 d2, digitsVal4 y1 y2 y3 y4,
                    digitsVal2 h1 h2, digitsVal2 n1 n2, rest2)
            else none
          | _ => none
        else none
      else none
    | _ => none
  else none

/-- The callback of the second normalizer: `Date.parse(t + ' UTC')` with
the same JavaScript `!date` guard (both `NaN` and the epoch instant `0`
leave the match unchanged). -/
def jsDateRepl2 (diff : Int → String) (m word : List Char) (d y hh mi : Nat) : List Char :=
  match monthFromNameL word with
  | none => m
  | some mo =>
    match parseInstant y mo d hh mi with
    | none => m
    | some ms => if ms = 0 then m else (diff ms).toList

/-- Global-replace scan for the second normalizer. -/
def scan2 (diff : Int → String) : Nat → List Char → List Char
  | 0, l => l
  | _ + 1, [] => []
  | fuel + 1, c :: cs =>
    match matchShape2 (c :: cs) with
    | some (m, word, d, y, hh, mi, rest) =>
      jsDateRepl2 diff m word d y hh mi ++ scan2 diff fuel rest
    | none => c :: scan2 diff fuel cs

namespace Syringe

/-- First built-in normalizer of `translateUiText`:
`repText.replace(/\d\d\d\d-\d\d-\d\d \d\d:\d\d/g, ...)`. -/
def replaceDates1 (diff : Int → String) (s : String) : String :=
  String.mk (scan1 diff s.toList.length s.toList)

/-- Second built-in normalizer of `translateUiText`:
`repText.replace(/\d\d \w{2,10} \d\d\d\d, \d\d:\d\d/gi, ...)`. -/
def replaceDates2 (diff : Int → String) (s : String) : String :=
  String.mk (scan2 diff s.toList.length s.toList)

end Syringe

/-! ## UI translation data and `translateUiText` -/

/-- Static UI-string dictionary delivered by the `uiTranslation`
collaborator: an exact-match map and an ordered list of pattern rules.
Each pattern rule `repText.replace(k, v)` is embedded as an opaque string
transformer. -/
structure UiData where
  plainReplacements : List (String × String)
  regexReplacements : List (String → String)

/-- Exact-match lookup (`uiData.plainReplacements.get(text)`). -/
def lookupPlain (m : List (String × String)) (k : String) : Option String :=
  (m.find? (fun p => p.1 = k)).map (·.2)

namespace Syringe

/-- `Syringe.translateUiText`: exact-match lookup first (returning
immediately), otherwise the pattern rules threaded in order, then the two
date normalizers; the result is returned only when it differs from the
input (`undefined`, i.e. `none`, otherwise). -/
def translateUiText (ui : UiData) (diff : Int → String) (text : String) : Option String :=
  match lookupPlain ui.plainReplacements text with
  | some plain => some plain
  | none =>
    let rep1 := ui.regexReplacements.foldl (fun acc f => f acc) text
    let rep2 := replaceDates1 diff rep1
    let rep3 := replaceDates2 diff rep2
    if rep3 ≠ text then some rep3 else none

end Syringe

/-! ## Configuration and document model -/

/-- The external configuration (`ConfigData`): the four fields the core
reads. -/
structure Config where
  translateTag : Bool
  translateUi : Bool
  showIcon : Bool
  introduceImageLevel : Nat
deriving DecidableEq

/-- Document-side state touched by the tag tracker: the
`parentElement` relation over element identities (the document node has
identity 0), and each element's content (`innerText` / `innerHTML`) and
`lang` attribute. -/
structure DocState where
  parentOf : Nat → Option Nat
  contentOf : Nat → String
  langOf : Nat → String

/-- Write an element's content and `lang` attribute. -/
def DocState.setContentLang (s : DocState) (e : Nat) (c lg : String) : DocState :=
  { s with
    contentOf := fun n => if n = e then c else s.contentOf n
    langOf := fun n => if n = e then lg else s.langOf n }

/-- An element of identity `e` is attached to the live document tree when
its `parentElement` chain reaches the document node (identity 0); `fuel`
bounds the chain length. -/
def attachedToDocument (s : DocState) : Nat → Nat → Bool
  | 0, _ => false
  | fuel + 1, e =>
    if e = 0 then true
    else
      match s.parentOf e with
      | none => false
      | some p => attachedToDocument s fuel p

/-- Lookup in the tag dictionary (`this.tagMap[fullKey]`), embedded as an
association list. -/
def lookupTag (m : List (String × String)) (k : String) : Option String :=
  (m.find? (fun p => p.1 = k)).map (·.2)

/-- A tracked tag entry (`TagNodeRef`): the owning container element, the
fully-qualified dictionary key, and the original text captured at
creation. -/
structure TagNodeRef where
  parent : Nat
  fullKey : String
  original : String
deriving DecidableEq

namespace TagNodeRef

/-- `TagNodeRef.alive`: `!!this.parent.parentElement`. -/
def alive (r : TagNodeRef) (s : DocState) : Bool :=
  (s.parentOf r.parent).isSome

/-- `TagNodeRef.translate`, as a pure transformer of the document state.
`mark` and `strip` are the external `tagging.markImagesAndEmoji` and
`tagging.removeImagesAndEmoji`; the returned `Bool` is the source's
return value.  The JavaScript falsiness check `if (!value)` on the
dictionary value fails both for a missing key and for the empty string. -/
def translate (cfg : Config) (tagMap : Option (List (String × String)))
    (mark strip : String → String) (r : TagNodeRef) (s : DocState) :
    Bool × DocState :=
  if ¬ r.alive s then (true, s)
  else if cfg.translateTag = false then
    (true, s.setContentLang r.parent r.original "en")
  else
    match tagMap with
    | none => (false, s)
    | some m =>
      match lookupTag m r.fullKey with
      | none => (false, s)
      | some v =>
        if v = "" then (false, s)
        else
          let v1 := if cfg.showIcon then mark v else strip v
          let v2 :=
            if r.original.toList.get? 1 = some ':' then
              String.mk (r.original.toList.take 1) ++ ":" ++ v1
            else v1
          (true, s.setContentLang r.parent v2 "cmn-Hans")

end TagNodeRef

namespace Syringe

/-- `Syringe.translateTags`: filter the working set down to the live
entries, then run `translate()` on each surviving entry in order.  The
returned list is both the new working set and exactly the set of entries
on which `translate()` (and hence any dictionary lookup or element
mutation) was invoked. -/
def translateTags (cfg : Config) (tagMap : Option (List (String × String)))
    (mark strip : String → String) (tags : List TagNodeRef) (s : DocState) :
    List TagNodeRef × DocState :=
  let live := tags.filter (fun t => t.alive s)
  (live, live.foldl (fun acc t => (t.translate cfg tagMap mark strip acc).2) s)

end Syringe

/-! ## Body presentation attributes -/

/-- The body element's state touched by `setBodyAttrs`: its class list
and `lang` attribute. -/
structure BodyState where
  classes : List String
  lang : String
deriving DecidableEq

/-- `classList.add`: appends the class when not already present. -/
def addClass (l : List String) (c : String) : List String :=
  if c ∈ l then l else l ++ [c]

namespace Syringe

/-- `Syringe.setBodyAttrs`: host class, removal of all `ehs*` classes,
icon/tag/image-level classes and the `lang` attribute, all recomputed
from the configuration.  `isEx` models `location.host.includes('exhentai')`. -/
def setBodyAttrs (isEx : Bool) (cfg : Config) (b : BodyState) : BodyState :=
  let cl0 := addClass b.classes (if isEx then "ex" else "eh")
  let cl1 := cl0.filter (fun k => ¬ k.startsWith "ehs")
  let cl2 := if cfg.showIcon = false then addClass cl1 "ehs-hide-icon" else cl1
  let cl3 := if cfg.translateTag then addClass cl2 "ehs-translate-tag" else cl2
  let lg := if cfg.translateUi then "cmn-Hans" else "en"
  let cl4 := addClass cl3 ("ehs-image-level-" ++ toString cfg.introduceImageLevel)
  { classes := cl4, lang := lg }

end Syringe

/-! ## Whole-service state and `updateConfig` -/

/-- The `Syringe` service's mutable state relevant to the configuration
update path. -/
structure SyringeState where
  config : Config
  storedConfig : Config
  tagMap : Option (List (String × String))
  tags : List TagNodeRef
  doc : DocState
  body : Option BodyState

namespace Syringe

/-- `Syringe.updateConfig`: replace the configuration, persist it, then
recompute the body attributes when a body element exists, and re-run
`translate()` on the live entries when (and only when) the tag dictionary
is loaded (`if (this.tagMap) this.translateTags()`).  The two booleans
report whether `setBodyAttrs` respectively `translateTags` ran. -/
def updateConfig (isEx : Bool) (mark strip : String → String)
    (s : SyringeState) (cfg : Config) : SyringeState × Bool × Bool :=
  let s1 : SyringeState := { s with config := cfg, storedConfig := cfg }
  let bodyStep : SyringeState × Bool :=
    match s1.body with
    | some b => ({ s1 with body := some (setBodyAttrs isEx cfg b) }, true)
    | none => (s1, false)
  let s2 := bodyStep.1
  match s2.tagMap with
  | some m =>
    let res := translateTags cfg (some m) mark strip s2.tags s2.doc
    ({ s2 with tags := res.1, doc := res.2 }, bodyStep.2, true)
  | none => (s2, bodyStep.2, false)

end Syringe

/-! ## Node classifier and tag-node creation -/

/-- The attributes of a container element read and written by
`TagNodeRef.create`.  A missing `title` attribute and `title=""` are
conflated (the source reads `parentElement.title`, which is `""` in both
cases, and its `hasAttribute('title')` backfill check only differs on an
explicitly empty attribute). -/
structure ElemInfo where
  nodeName : String
  idAttr : String
  title : String
  classList : List String
  ehsTag : Option String
  lang : String
deriving DecidableEq

/-- A text node together with its parent and grandparent elements, as
read by `translateTag` and `TagNodeRef.create`; `parentId` is the parent
element's identity in the document model. -/
structure TextNodeCtx where
  content : String
  parentId : Nat
  parent : Option ElemInfo
  grandparent : Option ElemInfo

/-- Result of `TagNodeRef.create`: either the boolean the source returns
(`true` = already handled, `false` = no key could be derived) or a new
tracked entry together with the mutated parent element. -/
inductive CreateResult where
  | boolResult (b : Bool)
  | created (r : TagNodeRef) (parentAfter : ElemInfo)
deriving DecidableEq

/-- JavaScript `id.replace(/_/gi, ' ')`. -/
def underscoresToSpaces (s : String) : String :=
  String.mk (s.toList.map (fun c => if c = '_' then ' ' else c))

/-- JavaScript `s.split(sep)` on a one-character separator: splits at
every occurrence, keeping empty segments (`"a:"` gives `["a", ""]`,
`""` gives `[""]`). -/
def jsSplitAux (sep : Char) : List Char → List Char → List (List Char)
  | [], acc => [acc.reverse]
  | c :: cs, acc =>
    if c = sep then acc.reverse :: jsSplitAux sep cs []
    else jsSplitAux sep cs (c :: acc)

/-- JavaScript `s.split(sep)` for a one-character separator string. -/
def jsSplit (sep : Char) (s : String) : List String :=
  (jsSplitAux sep s.toList []).map String.mk

/-- JavaScript `id.startsWith('ta_')`. -/
def startsWithTa (s : String) : Bool :=
  s.toList.take 3 = ['t', 'a', '_']

namespace TagNodeRef

/-- `TagNodeRef.create`.  `fullKeyF ns k?` is the external
`tagging.fullKey({ namespace, key })`; in the title branch the key
component is `split(':')[1]` and may be absent, in the id branch a falsy
(absent or empty) key component redirects to
`fullKey({ namespace: '', key: namespace })`.  A candidate that is absent
or empty (JavaScript `!fullKeyCandidate`) makes `create` return `false`.
On creation the parent element is marked with the `ehs-tag` attribute
holding the original text, its `lang` is set to the source language, and
an absent title is backfilled with the derived key. -/
def create (fullKeyF : String → Option String → String) (node : TextNodeCtx) :
    CreateResult :=
  match node.parent with
  | none => .boolResult true
  | some p =>
    if p.ehsTag.isSome then .boolResult true
    else
      let aId := p.idAttr
      let aTitle := p.title
      let fullKeyCandidate : Option String :=
        if aTitle ≠ "" then
          let parts := jsSplit ':' aTitle
          some (fullKeyF (parts.headD "") (parts.get? 1))
        else if aId ≠ "" then
          let id1 := if startsWithTa aId then String.mk (aId.toList.drop 3) else aId
          let parts := jsSplit ':' (underscoresToSpaces id1)
          let ns := parts.headD ""
          match parts.get? 1 with
          | some k => if k ≠ "" then some (fullKeyF ns (some k))
                      else some (fullKeyF "" (some ns))
          | none => some (fullKeyF "" (some ns))
        else none
      match fullKeyCandidate with
      | none => .boolResult false
      | some fk =>
        if fk = "" then .boolResult false
        else
          let text := node.content
          .created { parent := node.parentId, fullKey := fk, original := text }
            { p with
              ehsTag := some text
              lang := "en"
              title := if p.title = "" then fk else p.title }

end TagNodeRef

namespace Syringe

/-- `Syringe.isTagContainer`: one of the three tag-container presentation
classes. -/
def isTagContainer (node : Option ElemInfo) : Bool :=
  match node with
  | none => false
  | some n =>
    n.classList.contains "gt" || n.classList.contains "gtl" || n.classList.contains "gtw"

/-- Result of a `translateTag` step: the returned handled flag, the
created entry (when one was created), the parent element after any
mutation, and the document state after the immediate `ref.translate()`
call on a newly created entry. -/
structure TagStepResult where
  handled : Bool
  newRef : Option TagNodeRef
  parentAfter : Option ElemInfo
  doc : DocState

/-- `Syringe.translateTag`.  `isTextNode` models `isText(node)`; on
creation the new entry is immediately translated
(`ref.translate(); this.tags.push(ref)`). -/
def translateTag (fullKeyF : String → Option String → String) (cfg : Config)
    (tagMap : Option (List (String × String))) (mark strip : String → String)
    (isTextNode : Bool) (node : TextNodeCtx) (doc : DocState) : TagStepResult :=
  match node.parent with
  | none => ⟨false, none, none, doc⟩
  | some p =>
    if ¬ isTextNode then ⟨false, none, some p, doc⟩
    else if p.nodeName = "MARK" ∨ p.classList.contains "auto-complete-text" then
      ⟨true, none, some p, doc⟩
    else if ¬ (isTagContainer (some p) || isTagContainer node.grandparent) then
      ⟨false, none, some p, doc⟩
    else
      match TagNodeRef.create fullKeyF node with
      | .boolResult b => ⟨b, none, some p, doc⟩
      | .created r p1 =>
        let step := r.translate cfg tagMap mark strip doc
        ⟨true, some r, some p1, step.2⟩

/-- The fixed skip set of `translateNode`. -/
def skipNode : List String :=
  ["TITLE", "LINK", "META", "HEAD", "SCRIPT", "BR", "HR", "STYLE", "MARK"]

/-- Result of `translateNode` on a text node: the created entry (if
any), whether `translateUi` was invoked on the node, the node's text
content afterwards, the parent element after any mutation, and the
document state. -/
structure TextNodeResult where
  newRef : Option TagNodeRef
  uiAttempted : Bool
  content : String
  parentAfter : Option ElemInfo
  doc : DocState

/-- `Syringe.translateNode` specialised to a text node (whose `nodeName`
is `"#text"`, never in the skip set, and which is not the body element):
the skip check on the parent's node name, then `translateTag`, then —
only when the node was not handled and UI translation is enabled —
`translateUi`, which for a text node rewrites `textContent` when
`translateUiText` yields a translation. -/
def translateNode (fullKeyF : String → Option String → String) (cfg : Config)
    (tagMap : Option (List (String × String))) (mark strip : String → String)
    (ui : UiData) (diff : Int → String) (node : TextNodeCtx) (doc : DocState) :
    TextNodeResult :=
  let parentSkipped :=
    match node.parent with
    | some p => skipNode.contains p.nodeName
    | none => false
  if parentSkipped then
    ⟨none, false, node.content, node.parent, doc⟩
  else
    let step := translateTag fullKeyF cfg tagMap mark strip true node doc
    if ¬ step.handled ∧ cfg.translateUi then
      let content1 :=
        match translateUiText ui diff node.content with
        | some t => t
        | none => node.content
      ⟨step.newRef, true, content1, step.parentAfter, step.doc⟩
    else
      ⟨step.newRef, false, node.content, step.parentAfter, step.doc⟩

/-- An `input` or `textarea` element as read by `translateUi`. -/
structure InputElem where
  typ : String
  placeholder : String
  value : String
deriving DecidableEq

/-- First statement of the `input` / `textarea` branch of
`Syringe.translateUi`: the placeholder is translated when non-empty
(JavaScript `if (node.placeholder)`). -/
def translateUiInputPlaceholder (ui : UiData) (diff : Int → String) (n : InputElem) :
    InputElem :=
  if n.placeholder ≠ "" then
    match translateUiText ui diff n.placeholder with
    | some t => { n with placeholder := t }
    | none => n
  else n

/-- Second statement of the `input` / `textarea` branch: the value is
translated only when the element's `type` is `submit` or `button`. -/
def translateUiInputValue (ui : UiData) (diff : Int → String) (n : InputElem) :
    InputElem :=
  if n.typ = "submit" ∨ n.typ = "button" then
    match translateUiText ui diff n.value with
    | some t => { n with value := t }
    | none => n
  else n

/-- The `input` / `textarea` branch of `Syringe.translateUi`: the two
statements in the source's order. -/
def translateUiInput (ui : UiData) (diff : Int → String) (n : InputElem) : InputElem :=
  translateUiInputValue ui diff (translateUiInputPlaceholder ui diff n)

end Syringe

/-! ## Mutation pipeline -/

/-- A subtree reported by the change feed, with node identities. -/
inductive DomTree where
  | mk (id : Nat) (kids : List DomTree)

/-- Root identity of a subtree. -/
def DomTree.rootId : DomTree → Nat
  | .mk i _ => i

mutual

/-- Pre-order traversal of a subtree (the order `createNodeIterator`
visits nodes, the root included). -/
def DomTree.preorder : DomTree → List Nat
  | .mk i ks => i :: preorderList ks

/-- Pre-order traversal of a forest. -/
def preorderList : List DomTree → List Nat
  | [] => []
  | t :: ts => t.preorder ++ preorderList ts

end

/-- The two external events driving `Syringe.init`'s pipeline: the
document's `DOMContentLoaded` notification and an inserted subtree
reported by the mutation observer. -/
inductive PipeEvent where
  | loaded
  | insert (t : DomTree)

/-- Pipeline state: the `documentEnd` phase flag (`false` = Loading,
`true` = Loaded) and the sequence of nodes dispatched to
`translateNode`. -/
structure PipeState where
  documentEnd : Bool
  processed : List Nat

/-- One reaction of `Syringe.init`'s pipeline: `DOMContentLoaded` sets
`documentEnd`; an inserted node is always dispatched itself, and its
whole subtree is additionally walked with `createNodeIterator` exactly
when `documentEnd` holds (`if (this.documentEnd && node1.childNodes)`;
`childNodes` is always truthy). -/
def pipeStep (s : PipeState) : PipeEvent → PipeState
  | .loaded => { s with documentEnd := true }
  | .insert t =>
    { s with
      processed := s.processed ++ t.rootId :: (if s.documentEnd then t.preorder else []) }

/-- Run the pipeline over a sequence of events. -/
def pipeRun (s : PipeState) (evs : List PipeEvent) : PipeState :=
  evs.foldl pipeStep s

/-- Whether an event is the load-completion notification. -/
def PipeEvent.isLoaded : PipeEvent → Bool
  | .loaded => true
  | .insert _ => false

/-! ## Helper lemmas -/

/-- Writing content and language twice at the same element keeps only the
second write. -/
theorem DocState.setContentLang_absorb (s : DocState) (e : Nat) (c lg c1 lg1 : String) :
    (s.setContentLang e c lg).setContentLang e c1 lg1 = s.setContentLang e c1 lg1 := by
  simp only [DocState.setContentLang]
  congr 1 <;> funext n <;> by_cases h : n = e <;> simp [h]

/-- `translate` never changes the parent relation of the document. -/
theorem TagNodeRef.translate_parentOf (cfg : Config)
    (tagMap : Option (List (String × String))) (mark strip : String → String)
    (r : TagNodeRef) (s : DocState) :
    ((r.translate cfg tagMap mark strip s).2).parentOf = s.parentOf := by
  unfold TagNodeRef.translate
  repeat' split <;> try rfl

/-- `translate` changes content and language only at its own element. -/
theorem TagNodeRef.translate_other (cfg : Config)
    (tagMap : Option (List (String × String))) (mark strip : String → String)
    (r : TagNodeRef) (s : DocState) (e : Nat) (he : e ≠ r.parent) :
    ((r.translate cfg tagMap mark strip s).2).contentOf e = s.contentOf e ∧
    ((r.translate cfg tagMap mark strip s).2).langOf e = s.langOf e := by
  unfold TagNodeRef.translate
  refine ⟨?_, ?_⟩ <;> (repeat' split) <;> (try rfl) <;>
    simp [DocState.setContentLang, he]

/-! ## Claim C5 -/

/-- C5: `translateUiText(input)` returns the exact-match dictionary value
immediately when the input is present in the exact-match dictionary (no
pattern rules or normalizers applied); otherwise it threads the input
through the ordered pattern rules and the two date normalizers, and
returns the result only if it differs from the input, returning absent
when it is unchanged. -/
theorem translateUiText_pipeline (ui : UiData) (diff : Int → String) (text : String) :
    (∀ p, lookupPlain ui.plainReplacements text = some p →
      Syringe.translateUiText ui diff text = some p) ∧
    (lookupPlain ui.plainReplacements text = none →
      let r := Syringe.replaceDates2 diff
        (Syringe.replaceDates1 diff (ui.regexReplacements.foldl (fun acc f => f acc) text))
      (r ≠ text → Syringe.translateUiText ui diff text = some r) ∧
      (r = text → Syringe.translateUiText ui diff text = none)) := by
  refine ⟨fun p hp => ?_, fun h => ⟨fun h1 => ?_, fun h1 => ?_⟩⟩ <;>
    simp [Syringe.translateUiText, *]

/-- Witness for C5 at concrete inputs: an exact match returns the
dictionary value, and an input left unchanged by every rule returns
absent. -/
theorem translateUiText_pipeline_witness :
    Syringe.translateUiText ⟨[("Front Page", "首页")], []⟩ (fun _ => "x") "Front Page" =
      some "首页" ∧
    Syringe.translateUiText ⟨[("Front Page", "首页")], []⟩ (fun _ => "x") "other" = none := by
  constructor
  · exact (translateUiText_pipeline ⟨[("Front Page", "首页")], []⟩ (fun _ => "x")
      "Front Page").1 "首页" (by decide)
  · exact ((translateUiText_pipeline ⟨[("Front Page", "首页")], []⟩ (fun _ => "x")
      "other").2 (by decide)).2 (by decide)

/-! ## Claim C6 -/

/-- C6: `translate()` is idempotent: with unchanged configuration and
dictionary, a second call produces a document state identical to the
state after the first call. -/
theorem translate_idempotent (cfg : Config) (tagMap : Option (List (String × String)))
    (mark strip : String → String) (r : TagNodeRef) (s : DocState) :
    (r.translate cfg tagMap mark strip
        (r.translate cfg tagMap mark strip s).2).2 =
      (r.translate cfg tagMap mark strip s).2 := by
  by_cases ha : r.alive s
  · by_cases ht : cfg.translateTag = false
    · have h1 : (r.translate cfg tagMap mark strip s).2 =
          s.setContentLang r.parent r.original "en" := by
        simp [TagNodeRef.translate, ha, ht]
      have ha1 : r.alive (s.setContentLang r.parent r.original "en") = true := ha
      rw [h1]
      simp [TagNodeRef.translate, ha1, ht, DocState.setContentLang_absorb]
    · cases tagMap with
      | none => simp [TagNodeRef.translate, ha, ht]
      | some m =>
        cases hv : lookupTag m r.fullKey with
        | none => simp [TagNodeRef.translate, ha, ht, hv]
        | some v =>
          by_cases hve : v = ""
          · simp [TagNodeRef.translate, ha, ht, hv, hve]
          · have h1 : (r.translate cfg (some m) mark strip s).2 =
                s.setContentLang r.parent
                  (if r.original.toList.get? 1 = some ':' then
                    String.mk (r.original.toList.take 1) ++ ":" ++
                      (if cfg.showIcon then mark v else strip v)
                   else (if cfg.showIcon then mark v else strip v)) "cmn-Hans" := by
              simp [TagNodeRef.translate, ha, ht, hv, hve]
            have ha1 : r.alive ((r.translate cfg (some m) mark strip s).2) = true := by
              simpa [TagNodeRef.alive, TagNodeRef.translate_parentOf] using ha
            rw [h1] at ha1 ⊢
            simp [TagNodeRef.translate, ha1, ht, hv, hve, DocState.setContentLang_absorb]
  · have h1 : (r.translate cfg tagMap mark strip s).2 = s := by
      simp [TagNodeRef.translate, ha]
    rw [h1]
    exact h1

/-! ## Claim C7 -/

/-- C7: with the dictionary unchanged, toggling `translateTag` off
restores a live entry's container content to the exact original text and
resets the language marker to the source language; toggling it back on
reproduces exactly the document state of the first translation (same
translated output, target-locale marker). -/
theorem translate_round_trip (cfg : Config) (tagMap : List (String × String))
    (mark strip : String → String) (r : TagNodeRef) (s0 : DocState) (v : String)
    (halive : r.alive s0 = true) (htag : cfg.translateTag = true)
    (hv : lookupTag tagMap r.fullKey = some v) (hv0 : v ≠ "") :
    let s1 := (r.translate cfg (some tagMap) mark strip s0).2
    let s2 := (r.translate { cfg with translateTag := false } (some tagMap) mark strip s1).2
    let s3 := (r.translate cfg (some tagMap) mark strip s2).2
    s2.contentOf r.parent = r.original ∧ s2.langOf r.parent = "en" ∧
    s1.langOf r.parent = "cmn-Hans" ∧ s3 = s1 := by
  intro s1 s2 s3
  have htag1 : ¬ cfg.translateTag = false := by simp [htag]
  have hs1 : s1 = s0.setContentLang r.parent
      (if r.original.toList.get? 1 = some ':' then
        String.mk (r.original.toList.take 1) ++ ":" ++
          (if cfg.showIcon then mark v else strip v)
       else (if cfg.showIcon then mark v else strip v)) "cmn-Hans" := by
    show (r.translate cfg (some tagMap) mark strip s0).2 = _
    simp [TagNodeRef.translate, halive, htag1, hv, hv0]
  have ha1 : r.alive s1 = true := by
    show r.alive (r.translate cfg (some tagMap) mark strip s0).2 = true
    simpa [TagNodeRef.alive, TagNodeRef.translate_parentOf] using halive
  have hs2 : s2 = s1.setContentLang r.parent r.original "en" := by
    show (r.translate { cfg with translateTag := false } (some tagMap) mark strip s1).2 = _
    simp [TagNodeRef.translate, ha1]
  have ha2 : r.alive s2 = true := by
    show r.alive
      (r.translate { cfg with translateTag := false } (some tagMap) mark strip s1).2 = true
    simpa [TagNodeRef.alive, TagNodeRef.translate_parentOf] using ha1
  have hs3 : s3 = s2.setContentLang r.parent
      (if r.original.toList.get? 1 = some ':' then
        String.mk (r.original.toList.take 1) ++ ":" ++
          (if cfg.showIcon then mark v else strip v)
       else (if cfg.showIcon then mark v else strip v)) "cmn-Hans" := by
    show (r.translate cfg (some tagMap) mark strip s2).2 = _
    simp [TagNodeRef.translate, ha2, htag1, hv, hv0]
  refine ⟨?_, ?_, ?_, ?_⟩
  · rw [hs2]; simp [DocState.setContentLang]
  · rw [hs2]; simp [DocState.setContentLang]
  · rw [hs1]; simp [DocState.setContentLang]
  · rw [hs3, hs2, DocState.setContentLang_absorb, hs1, DocState.setContentLang_absorb]

/-- Witness for C7 at a concrete live entry, configuration and
dictionary. -/
theorem translate_round_trip_witness :
    let cfg : Config := ⟨true, true, false, 1⟩
    let r : TagNodeRef := ⟨1, "reclass:doujinshi", "Doujinshi"⟩
    let tm : List (String × String) := [("reclass:doujinshi", "同人志")]
    let s0 : DocState :=
      ⟨fun n => if n = 1 then some 0 else none, fun _ => "Doujinshi", fun _ => "en"⟩
    let s1 := (r.translate cfg (some tm) id id s0).2
    let s2 := (r.translate { cfg with translateTag := false } (some tm) id id s1).2
    let s3 := (r.translate cfg (some tm) id id s2).2
    s2.contentOf r.parent = r.original ∧ s2.langOf r.parent = "en" ∧
    s1.langOf r.parent = "cmn-Hans" ∧ s3 = s1 :=
  translate_round_trip ⟨true, true, false, 1⟩ [("reclass:doujinshi", "同人志")] id id
    ⟨1, "reclass:doujinshi", "Doujinshi"⟩
    ⟨fun n => if n = 1 then some 0 else none, fun _ => "Doujinshi", fun _ => "en"⟩
    "同人志" (by decide) rfl (by decide) (by decide)

/-! ## Claim C9 -/

/-- C9: when UI-translating an `input` or `textarea` element, the
placeholder is rewritten whenever it is non-empty and a translation
exists, but the element's value is rewritten only when the element's type
is `submit` or `button`; values of all other input types are left
unchanged. -/
theorem translateUiInput_rules (ui : UiData) (diff : Int → String)
    (n : Syringe.InputElem) :
    ((Syringe.translateUiInput ui diff n).typ = n.typ) ∧
    (n.typ ≠ "submit" → n.typ ≠ "button" →
      (Syringe.translateUiInput ui diff n).value = n.value) ∧
    (∀ t, n.placeholder ≠ "" →
      Syringe.translateUiText ui diff n.placeholder = some t →
      (Syringe.translateUiInput ui diff n).placeholder = t) ∧
    (∀ t, (n.typ = "submit" ∨ n.typ = "button") →
      Syringe.translateUiText ui diff n.value = some t →
      (Syringe.translateUiInput ui diff n).value = t) := by
  have hph : (Syringe.translateUiInputPlaceholder ui diff n).typ = n.typ ∧
      (Syringe.translateUiInputPlaceholder ui diff n).value = n.value := by
    unfold Syringe.translateUiInputPlaceholder
    (repeat' split) <;> exact ⟨rfl, rfl⟩
  have hvl : ∀ m : Syringe.InputElem,
      (Syringe.translateUiInputValue ui diff m).typ = m.typ ∧
      (Syringe.translateUiInputValue ui diff m).placeholder = m.placeholder := by
    intro m
    unfold Syringe.translateUiInputValue
    (repeat' split) <;> exact ⟨rfl, rfl⟩
  refine ⟨?_, ?_, ?_, ?_⟩
  · rw [Syringe.translateUiInput, (hvl _).1, hph.1]
  · intro h1 h2
    rw [Syringe.translateUiInput]
    unfold Syringe.translateUiInputValue
    rw [if_neg]
    · exact hph.2
    · rw [hph.1]
      simp [h1, h2]
  · intro t h1 h2
    rw [Syringe.translateUiInput, (hvl _).2]
    unfold Syringe.translateUiInputPlaceholder
    rw [if_pos h1, h2]
  · intro t h1 h2
    rw [Syringe.translateUiInput]
    unfold Syringe.translateUiInputValue
    rw [if_pos, hph.2, h2]
    rw [hph.1]
    exact h1

/-- Witness for C9: a concrete submit input with a translatable
placeholder and value, and a concrete text input whose value is left
unchanged. -/
theorem translateUiInput_rules_witness :
    (Syringe.translateUiInput ⟨[("Search", "搜索"), ("Go", "前往")], []⟩ (fun _ => "x")
        ⟨"submit", "Search", "Go"⟩).value = "前往" ∧
    (Syringe.translateUiInput ⟨[("Search", "搜索"), ("Go", "前往")], []⟩ (fun _ => "x")
        ⟨"text", "Search", "Go"⟩).value = "Go" ∧
    (Syringe.translateUiInput ⟨[("Search", "搜索"), ("Go", "前往")], []⟩ (fun _ => "x")
        ⟨"text", "Search", "Go"⟩).placeholder = "搜索" := by
  refine ⟨?_, ?_, ?_⟩
  · exact (translateUiInput_rules ⟨[("Search", "搜索"), ("Go", "前往")], []⟩ (fun _ => "x")
      ⟨"submit", "Search", "Go"⟩).2.2.2 "前往" (Or.inl rfl) (by decide)
  · exact (translateUiInput_rules ⟨[("Search", "搜索"), ("Go", "前往")], []⟩ (fun _ => "x")
      ⟨"text", "Search", "Go"⟩).2.1 (by decide) (by decide)
  · exact (translateUiInput_rules ⟨[("Search", "搜索"), ("Go", "前往")], []⟩ (fun _ => "x")
      ⟨"text", "Search", "Go"⟩).2.2.1 "搜索" (by decide) (by decide)

/-! ## Claim C10 -/

/-- C10: in tag key derivation, a non-empty title attribute always takes
precedence over the identifier attribute: the key candidate is derived
from the title's split on `:` (the key component being absent when the
title contains no colon), and the identifier attribute is never
consulted (the result is independent of it). -/
theorem create_title_precedence (fullKeyF : String → Option String → String)
    (c : String) (pid : Nat) (p : ElemInfo) (gp : Option ElemInfo)
    (hmark : p.ehsTag = none) (ht : p.title ≠ "") :
    (fullKeyF ((jsSplit ':' p.title).headD "") ((jsSplit ':' p.title).get? 1) ≠ "" →
      ∀ i, TagNodeRef.create fullKeyF ⟨c, pid, some { p with idAttr := i }, gp⟩ =
        .created
          ⟨pid, fullKeyF ((jsSplit ':' p.title).headD "") ((jsSplit ':' p.title).get? 1), c⟩
          { p with idAttr := i, ehsTag := some c, lang := "en" }) ∧
    (fullKeyF ((jsSplit ':' p.title).headD "") ((jsSplit ':' p.title).get? 1) = "" →
      ∀ i, TagNodeRef.create fullKeyF ⟨c, pid, some { p with idAttr := i }, gp⟩ =
        .boolResult false) := by
  refine ⟨fun hk i => ?_, fun hk i => ?_⟩ <;>
    simp at hk <;> simp [TagNodeRef.create, hmark, ht, hk]

/-- Witness for C10: a container whose title `"female"` has no colon and
which carries an identifier attribute; the key is derived from the title
alone. -/
theorem create_title_precedence_witness :
    TagNodeRef.create (fun ns k => ns ++ ":" ++ (k.getD "?"))
        ⟨"Doujinshi", 1, some ⟨"DIV", "ta_other_id", "female", ["gt"], none, ""⟩, none⟩ =
      .created ⟨1, "female:?", "Doujinshi"⟩
        ⟨"DIV", "ta_other_id", "female", ["gt"], some "Doujinshi", "en"⟩ :=
  (create_title_precedence (fun ns k => ns ++ ":" ++ (k.getD "?")) "Doujinshi" 1
      ⟨"DIV", "x", "female", ["gt"], none, ""⟩ none rfl (by decide)).1
    (by decide) "ta_other_id"

/-! ## Claim C8 -/

/-- C8: the pipeline's Loading-to-Loaded transition happens exactly on
the load-completion notification and never reverts (the phase flag after
any event sequence is the disjunction of the initial flag with the
presence of a load event); every inserted node is always dispatched
itself, and its descendants are traversed and dispatched if and only if
the pipeline is in the Loaded phase. -/
theorem pipeline_phases (s : PipeState) :
    (∀ evs : List PipeEvent,
      (pipeRun s evs).documentEnd = (s.documentEnd || evs.any PipeEvent.isLoaded)) ∧
    (∀ t : DomTree,
      t.rootId ∈ (pipeStep s (.insert t)).processed ∧
      (s.documentEnd = true →
        ∀ d ∈ t.preorder, d ∈ (pipeStep s (.insert t)).processed) ∧
      (s.documentEnd = false →
        (pipeStep s (.insert t)).processed = s.processed ++ [t.rootId])) := by
  constructor
  · intro evs
    induction evs generalizing s with
    | nil => simp [pipeRun]
    | cons e evs ih =>
      cases e with
      | loaded =>
        show (pipeRun { s with documentEnd := true } evs).documentEnd = _
        rw [ih]
        simp [PipeEvent.isLoaded]
      | insert t =>
        show (pipeRun { s with processed := _ } evs).documentEnd = _
        rw [ih]
        simp [PipeEvent.isLoaded]
  · intro t
    refine ⟨?_, fun h d hd => ?_, fun h => ?_⟩
    · simp [pipeStep]
    · simp only [pipeStep, h, if_true]
      simp [hd]
    · simp [pipeStep, h]

/-- Witness for C8: a load event flips the phase flag permanently, a
descendant of a subtree inserted after load is dispatched, and the same
subtree inserted before load contributes only its root. -/
theorem pipeline_phases_witness :
    (pipeRun ⟨false, []⟩ [.loaded, .insert (.mk 5 [.mk 6 []])]).documentEnd =
      (false || [PipeEvent.loaded, .insert (.mk 5 [.mk 6 []])].any PipeEvent.isLoaded) ∧
    6 ∈ (pipeStep ⟨true, []⟩ (.insert (.mk 5 [.mk 6 []]))).processed ∧
    (pipeStep ⟨false, [0]⟩ (.insert (.mk 5 [.mk 6 []]))).processed = [0] ++ [5] := by
  refine ⟨?_, ?_, ?_⟩
  · exact (pipeline_phases ⟨false, []⟩).1 [.loaded, .insert (.mk 5 [.mk 6 []])]
  · exact ((pipeline_phases ⟨true, []⟩).2 (.mk 5 [.mk 6 []])).2.1 rfl 6
      (by simp [DomTree.preorder, preorderList])
  · exact ((pipeline_phases ⟨false, [0]⟩).2 (.mk 5 [.mk 6 []])).2.2 rfl

/-! ## Claim C1 -/

/-- Counterexample to C1: a text node inside a recognized tag container
(`class="gt"`) whose container has neither a title nor an identifier
attribute.  `TagNodeRef.create` returns `false`, so `translateTag`
reports the node as not handled, no tracked entry is created — but
`translateNode` then falls through to UI-text translation, which rewrites
the node (here `"Doujinshi"` becomes `"同人志"` through the exact-match UI
dictionary), contradicting the claim that UI-text translation is never
attempted on such a node. -/
theorem translateNode_keyless_cex :
    (Syringe.translateNode (fun ns k => ns ++ ":" ++ k.getD "") ⟨true, true, false, 1⟩
        none id id ⟨[("Doujinshi", "同人志")], []⟩ (fun _ => "x")
        ⟨"Doujinshi", 1, some ⟨"DIV", "", "", ["gt"], none, ""⟩, none⟩
        ⟨fun n => if n = 1 then some 0 else none, fun _ => "Doujinshi", fun _ => "en"⟩).newRef
      = none ∧
    (Syringe.translateNode (fun ns k => ns ++ ":" ++ k.getD "") ⟨true, true, false, 1⟩
        none id id ⟨[("Doujinshi", "同人志")], []⟩ (fun _ => "x")
        ⟨"Doujinshi", 1, some ⟨"DIV", "", "", ["gt"], none, ""⟩, none⟩
        ⟨fun n => if n = 1 then some 0 else none, fun _ => "Doujinshi", fun _ => "en"⟩).uiAttempted
      = true ∧
    (Syringe.translateNode (fun ns k => ns ++ ":" ++ k.getD "") ⟨true, true, false, 1⟩
        none id id ⟨[("Doujinshi", "同人志")], []⟩ (fun _ => "x")
        ⟨"Doujinshi", 1, some ⟨"DIV", "", "", ["gt"], none, ""⟩, none⟩
        ⟨fun n => if n = 1 then some 0 else none, fun _ => "Doujinshi", fun _ => "en"⟩).content
      = "同人志" := by
  refine ⟨rfl, rfl, by decide⟩

/-- C1 as amended: for a text node inside a recognized tag container
whose container element yields no usable key (no title, no identifier,
not yet marked), no tracked entry is created and the document is left
unchanged, but the node is treated as NOT handled, so UI-text translation
is attempted on it exactly when `translateUi` is enabled in the
configuration. -/
theorem translateNode_keyless (fullKeyF : String → Option String → String)
    (cfg : Config) (tagMap : Option (List (String × String)))
    (mark strip : String → String) (ui : UiData) (diff : Int → String)
    (node : TextNodeCtx) (doc : DocState) (p : ElemInfo)
    (hp : node.parent = some p)
    (hskip : Syringe.skipNode.contains p.nodeName = false)
    (hmarkEl : ¬ (p.nodeName = "MARK" ∨ p.classList.contains "auto-complete-text"))
    (hcont : (Syringe.isTagContainer (some p) ||
      Syringe.isTagContainer node.grandparent) = true)
    (hehs : p.ehsTag = none) (htitle : p.title = "") (hid : p.idAttr = "") :
    (Syringe.translateNode fullKeyF cfg tagMap mark strip ui diff node doc).newRef = none ∧
    (Syringe.translateNode fullKeyF cfg tagMap mark strip ui diff node doc).doc = doc ∧
    (Syringe.translateNode fullKeyF cfg tagMap mark strip ui diff node doc).uiAttempted
      = cfg.translateUi ∧
    (cfg.translateUi = true →
      (Syringe.translateNode fullKeyF cfg tagMap mark strip ui diff node doc).content =
        (match Syringe.translateUiText ui diff node.content with
         | some t => t
         | none => node.content)) := by
  have hm1 : ¬ p.nodeName = "MARK" := fun h => hmarkEl (Or.inl h)
  have hm2 : "auto-complete-text" ∉ p.classList := fun h =>
    hmarkEl (Or.inr (by simpa using h))
  have hskip1 : p.nodeName ∉ Syringe.skipNode := by
    simpa using hskip
  have hstep : Syringe.translateTag fullKeyF cfg tagMap mark strip true node doc =
      ⟨false, none, some p, doc⟩ := by
    simp [Syringe.translateTag, TagNodeRef.create, hp, hm1, hm2, hcont,
      hehs, htitle, hid]
  cases hui : cfg.translateUi <;>
    simp [Syringe.translateNode, hstep, hp, hskip1, hui]

/-- Witness for C1 as amended, on concrete inputs: with UI translation
enabled the node falls through to the UI engine; note the distinct
dictionary from the counterexample. -/
theorem translateNode_keyless_witness :
    (Syringe.translateNode (fun ns k => ns ++ ":" ++ k.getD "") ⟨true, true, true, 3⟩
        (some [("k", "v")]) id id ⟨[("Language", "语言")], []⟩ (fun _ => "y")
        ⟨"Language", 7, some ⟨"SPAN", "", "", ["gtl"], none, ""⟩, none⟩
        ⟨fun _ => none, fun _ => "Language", fun _ => "en"⟩).newRef = none ∧
    (Syringe.translateNode (fun ns k => ns ++ ":" ++ k.getD "") ⟨true, true, true, 3⟩
        (some [("k", "v")]) id id ⟨[("Language", "语言")], []⟩ (fun _ => "y")
        ⟨"Language", 7, some ⟨"SPAN", "", "", ["gtl"], none, ""⟩, none⟩
        ⟨fun _ => none, fun _ => "Language", fun _ => "en"⟩).doc =
      (⟨fun _ => none, fun _ => "Language", fun _ => "en"⟩ : DocState) ∧
    (Syringe.translateNode (fun ns k => ns ++ ":" ++ k.getD "") ⟨true, true, true, 3⟩
        (some [("k", "v")]) id id ⟨[("Language", "语言")], []⟩ (fun _ => "y")
        ⟨"Language", 7, some ⟨"SPAN", "", "", ["gtl"], none, ""⟩, none⟩
        ⟨fun _ => none, fun _ => "Language", fun _ => "en"⟩).uiAttempted =
      (⟨true, true, true, 3⟩ : Config).translateUi ∧
    (Syringe.translateNode (fun ns k => ns ++ ":" ++ k.getD "") ⟨true, true, true, 3⟩
        (some [("k", "v")]) id id ⟨[("Language", "语言")], []⟩ (fun _ => "y")
        ⟨"Language", 7, some ⟨"SPAN", "", "", ["gtl"], none, ""⟩, none⟩
        ⟨fun _ => none, fun _ => "Language", fun _ => "en"⟩).content = "语言" := by
  have h := translateNode_keyless (fun ns k => ns ++ ":" ++ k.getD "")
    ⟨true, true, true, 3⟩ (some [("k", "v")]) id id ⟨[("Language", "语言")], []⟩
    (fun _ => "y") ⟨"Language", 7, some ⟨"SPAN", "", "", ["gtl"], none, ""⟩, none⟩
    ⟨fun _ => none, fun _ => "Language", fun _ => "en"⟩
    ⟨"SPAN", "", "", ["gtl"], none, ""⟩ rfl (by decide) (by decide) (by decide) rfl rfl rfl
  exact ⟨h.1, h.2.1, h.2.2.1, (h.2.2.2 rfl).trans (by decide)⟩

/-! ## Claim C2 -/

/-- A fold of `translate` over entries none of which own element `e`
leaves element `e`'s content and language unchanged. -/
theorem foldl_translate_other (cfg : Config)
    (tagMap : Option (List (String × String))) (mark strip : String → String)
    (l : List TagNodeRef) (e : Nat) :
    ∀ s : DocState, (∀ t ∈ l, t.parent ≠ e) →
      ((l.foldl (fun acc t => (t.translate cfg tagMap mark strip acc).2) s).contentOf e
          = s.contentOf e ∧
       (l.foldl (fun acc t => (t.translate cfg tagMap mark strip acc).2) s).langOf e
          = s.langOf e) := by
  induction l with
  | nil => exact fun s _ => ⟨rfl, rfl⟩
  | cons a l ih =>
    intro s h
    have ha : e ≠ a.parent := fun he => (h a (by simp) he.symm).elim
    have h1 := TagNodeRef.translate_other cfg tagMap mark strip a s e ha
    have h2 := ih ((a.translate cfg tagMap mark strip s).2)
      (fun t ht => h t (by simp [ht]))
    simp only [List.foldl_cons]
    exact ⟨h2.1.trans h1.1, h2.2.trans h1.2⟩

/-- Counterexample to C2: element 2's parent is element 1, which is
itself detached from the document, so element 2 is NOT attached to the
live document tree; yet the entry's `alive` check (`parentElement` being
non-null) succeeds, the refresh pass keeps the entry in the working set,
invokes `translate()` on it (the dictionary holds its key) and mutates
the detached element's content. -/
theorem translateTags_detached_cex :
    TagNodeRef.alive ⟨2, "k", "orig"⟩
      ⟨fun n => if n = 2 then some 1 else none, fun _ => "orig", fun _ => "en"⟩ = true ∧
    attachedToDocument
      ⟨fun n => if n = 2 then some 1 else none, fun _ => "orig", fun _ => "en"⟩ 10 2 = false ∧
    (Syringe.translateTags ⟨true, true, false, 1⟩ (some [("k", "VAL")]) id id
        [⟨2, "k", "orig"⟩]
        ⟨fun n => if n = 2 then some 1 else none, fun _ => "orig", fun _ => "en"⟩).1 =
      [⟨2, "k", "orig"⟩] ∧
    (Syringe.translateTags ⟨true, true, false, 1⟩ (some [("k", "VAL")]) id id
        [⟨2, "k", "orig"⟩]
        ⟨fun n => if n = 2 then some 1 else none, fun _ => "orig", fun _ => "en"⟩).2.contentOf 2 =
      "VAL" := by
  refine ⟨rfl, rfl, by decide, by decide⟩

/-- C2 as amended: an entry is alive iff its owning element still has a
parent element (which is weaker than attachment to the document tree);
once the owning element itself has no parent, the next refresh pass drops
the entry from the working set — the new working set, which is exactly
the set of entries `translate()` is invoked on, excludes it — and leaves
the element's content and language unchanged. -/
theorem translateTags_dead_pruned (cfg : Config)
    (tagMap : Option (List (String × String))) (mark strip : String → String)
    (tags : List TagNodeRef) (doc : DocState) (r : TagNodeRef)
    (hdead : doc.parentOf r.parent = none) :
    r.alive doc = false ∧
    r ∉ (Syringe.translateTags cfg tagMap mark strip tags doc).1 ∧
    (Syringe.translateTags cfg tagMap mark strip tags doc).2.contentOf r.parent
      = doc.contentOf r.parent ∧
    (Syringe.translateTags cfg tagMap mark strip tags doc).2.langOf r.parent
      = doc.langOf r.parent := by
  have halive : r.alive doc = false := by
    simp [TagNodeRef.alive, hdead]
  have hne : ∀ t ∈ tags.filter (fun t => t.alive doc), t.parent ≠ r.parent := by
    intro t ht he
    have := (List.mem_filter.mp ht).2
    rw [TagNodeRef.alive, he, hdead] at this
    simp at this
  have hfold := foldl_translate_other cfg tagMap mark strip
    (tags.filter (fun t => t.alive doc)) r.parent doc hne
  refine ⟨halive, ?_, hfold.1, hfold.2⟩
  intro hmem
  have := (List.mem_filter.mp hmem).2
  rw [halive] at this
  simp at this

/-- Witness for C2 as amended: a concrete entry whose owning element has
no parent is dropped and its content is untouched by the refresh pass. -/
theorem translateTags_dead_pruned_witness :
    TagNodeRef.alive ⟨3, "q", "orig"⟩
      ⟨fun n => if n = 4 then some 0 else none, fun _ => "orig", fun _ => "en"⟩ = false ∧
    (⟨3, "q", "orig"⟩ : TagNodeRef) ∉
      (Syringe.translateTags ⟨true, true, false, 1⟩ (some [("q", "VAL")]) id id
        [⟨3, "q", "orig"⟩, ⟨4, "q", "orig"⟩]
        ⟨fun n => if n = 4 then some 0 else none, fun _ => "orig", fun _ => "en"⟩).1 ∧
    (Syringe.translateTags ⟨true, true, false, 1⟩ (some [("q", "VAL")]) id id
        [⟨3, "q", "orig"⟩, ⟨4, "q", "orig"⟩]
        ⟨fun n => if n = 4 then some 0 else none, fun _ => "orig", fun _ => "en"⟩).2.contentOf 3 =
      "orig" ∧
    (Syringe.translateTags ⟨true, true, false, 1⟩ (some [("q", "VAL")]) id id
        [⟨3, "q", "orig"⟩, ⟨4, "q", "orig"⟩]
        ⟨fun n => if n = 4 then some 0 else none, fun _ => "orig", fun _ => "en"⟩).2.langOf 3 =
      "en" := by
  have h := translateTags_dead_pruned ⟨true, true, false, 1⟩ (some [("q", "VAL")]) id id
    [⟨3, "q", "orig"⟩, ⟨4, "q", "orig"⟩]
    ⟨fun n => if n = 4 then some 0 else none, fun _ => "orig", fun _ => "en"⟩
    ⟨3, "q", "orig"⟩ rfl
  exact ⟨h.1, h.2.1, h.2.2.1, h.2.2.2⟩

/-! ## Claim C3 -/

/-- A fold of `translate` under a configuration with tag translation
disabled restores every live entry (with pairwise distinct owning
elements) to its original content and the source language. -/
theorem foldl_translate_restore (cfg : Config)
    (tagMap : Option (List (String × String))) (mark strip : String → String)
    (hcfg : cfg.translateTag = false) (l : List TagNodeRef) :
    ∀ s : DocState, (l.map (·.parent)).Nodup → (∀ t ∈ l, t.alive s = true) →
      ∀ t ∈ l,
        ((l.foldl (fun acc t => (t.translate cfg tagMap mark strip acc).2) s).contentOf
            t.parent = t.original ∧
         (l.foldl (fun acc t => (t.translate cfg tagMap mark strip acc).2) s).langOf
            t.parent = "en") := by
  induction l with
  | nil => simp
  | cons a l ih =>
    intro s hnodup halive t ht
    have hs1 : (a.translate cfg tagMap mark strip s).2 =
        s.setContentLang a.parent a.original "en" := by
      simp [TagNodeRef.translate, halive a (by simp), hcfg]
    have halive1 : ∀ u ∈ l, u.alive ((a.translate cfg tagMap mark strip s).2) = true := by
      intro u hu
      rw [TagNodeRef.alive, TagNodeRef.translate_parentOf]
      exact halive u (by simp [hu])
    simp only [List.foldl_cons]
    rcases List.mem_cons.mp ht with rfl | htl
    · have hne : ∀ u ∈ l, u.parent ≠ t.parent := by
        intro u hu he
        have hum : u.parent ∈ l.map (fun x => x.parent) :=
          List.mem_map_of_mem (fun x => x.parent) hu
        rw [he] at hum
        exact (List.nodup_cons.mp hnodup).1 hum
      have hfold := foldl_translate_other cfg tagMap mark strip l t.parent
        ((t.translate cfg tagMap mark strip s).2) hne
      rw [hs1] at hfold ⊢
      refine ⟨hfold.1.trans ?_, hfold.2.trans ?_⟩ <;>
        simp [DocState.setContentLang]
    · exact ih ((a.translate cfg tagMap mark strip s).2)
        ((List.nodup_cons.mp hnodup).2) halive1 t htl

/-- A refresh pass under a configuration with tag translation disabled
restores every live tracked entry to its original content and source
language. -/
theorem translateTags_restore (cfg : Config)
    (tagMap : Option (List (String × String))) (mark strip : String → String)
    (hcfg : cfg.translateTag = false) (tags : List TagNodeRef) (doc : DocState)
    (hnodup : (tags.map (·.parent)).Nodup) (t : TagNodeRef) (ht : t ∈ tags)
    (halive : t.alive doc = true) :
    (Syringe.translateTags cfg tagMap mark strip tags doc).2.contentOf t.parent
      = t.original ∧
    (Syringe.translateTags cfg tagMap mark strip tags doc).2.langOf t.parent
      = "en" := by
  have hmem : t ∈ tags.filter (fun u => u.alive doc) :=
    List.mem_filter.mpr ⟨ht, by simp [halive]⟩
  have hsub : List.Sublist ((tags.filter (fun u => u.alive doc)).map (fun u => u.parent))
      (tags.map (fun u => u.parent)) :=
    (List.filter_sublist tags).map (fun u => u.parent)
  have hnodup2 : ((tags.filter (fun u => u.alive doc)).map (·.parent)).Nodup :=
    hnodup.sublist hsub
  have halive2 : ∀ u ∈ tags.filter (fun u => u.alive doc), u.alive doc = true :=
    fun u hu => by simpa using (List.mem_filter.mp hu).2
  exact foldl_translate_restore cfg tagMap mark strip hcfg _ doc hnodup2 halive2 t hmem

/-- Counterexample to C3: a configuration change arriving while the tag
dictionary is not yet loaded.  The entry is live, the new configuration
disables tag translation (so a refresh would restore the entry's content
to `"orig"`), yet `updateConfig` does not run the refresh pass
(`if (this.tagMap) this.translateTags()`), and the element keeps its
stale content `"X"`. -/
theorem updateConfig_no_refresh_cex :
    TagNodeRef.alive ⟨1, "k", "orig"⟩
      ⟨fun n => if n = 1 then some 0 else none, fun _ => "X", fun _ => "cmn-Hans"⟩ = true ∧
    (Syringe.updateConfig false id id
        ⟨⟨true, true, true, 1⟩, ⟨true, true, true, 1⟩, none, [⟨1, "k", "orig"⟩],
          ⟨fun n => if n = 1 then some 0 else none, fun _ => "X", fun _ => "cmn-Hans"⟩,
          some ⟨[], "en"⟩⟩
        ⟨false, true, false, 1⟩).2.2 = false ∧
    (Syringe.updateConfig false id id
        ⟨⟨true, true, true, 1⟩, ⟨true, true, true, 1⟩, none, [⟨1, "k", "orig"⟩],
          ⟨fun n => if n = 1 then some 0 else none, fun _ => "X", fun _ => "cmn-Hans"⟩,
          some ⟨[], "en"⟩⟩
        ⟨false, true, false, 1⟩).1.doc.contentOf 1 = "X" ∧
    ("X" : String) ≠ "orig" := by
  refine ⟨rfl, rfl, rfl, by decide⟩

/-- C3 as amended: a configuration update replaces the configuration
atomically and persists it before returning; the body element's
presentational attributes are recomputed exactly when a body element
exists; and the refresh pass over the live tracked entries runs exactly
when the tag dictionary is loaded — in which case the working set is
filtered to the live entries and (for example) a configuration disabling
tag translation restores every live entry to its original content and
source language. -/
theorem updateConfig_spec (isEx : Bool) (mark strip : String → String)
    (s : SyringeState) (cfg : Config) :
    (Syringe.updateConfig isEx mark strip s cfg).1.config = cfg ∧
    (Syringe.updateConfig isEx mark strip s cfg).1.storedConfig = cfg ∧
    (Syringe.updateConfig isEx mark strip s cfg).2.1 = s.body.isSome ∧
    (∀ b, s.body = some b →
      (Syringe.updateConfig isEx mark strip s cfg).1.body =
        some (Syringe.setBodyAttrs isEx cfg b)) ∧
    (Syringe.updateConfig isEx mark strip s cfg).2.2 = s.tagMap.isSome ∧
    (s.tagMap = none →
      (Syringe.updateConfig isEx mark strip s cfg).1.doc = s.doc ∧
      (Syringe.updateConfig isEx mark strip s cfg).1.tags = s.tags) ∧
    (∀ m, s.tagMap = some m →
      (Syringe.updateConfig isEx mark strip s cfg).1.tags =
        s.tags.filter (fun t => t.alive s.doc) ∧
      (cfg.translateTag = false → (s.tags.map (·.parent)).Nodup →
        ∀ t ∈ s.tags, t.alive s.doc = true →
          (Syringe.updateConfig isEx mark strip s cfg).1.doc.contentOf t.parent =
            t.original ∧
          (Syringe.updateConfig isEx mark strip s cfg).1.doc.langOf t.parent = "en")) := by
  rcases s with ⟨c0, sc0, tm0, tags0, doc0, body0⟩
  cases body0 with
  | none =>
    cases tm0 with
    | none =>
      refine ⟨rfl, rfl, rfl, fun b hb => ?_, rfl, fun _ => ⟨rfl, rfl⟩, fun m hm => ?_⟩
      · exact Option.noConfusion hb
      · exact Option.noConfusion hm
    | some m0 =>
      refine ⟨rfl, rfl, rfl, fun b hb => ?_, rfl, fun h => ?_, fun m hm => ?_⟩
      · exact Option.noConfusion hb
      · exact Option.noConfusion h
      · cases hm
        exact ⟨rfl, fun hcfg hnodup t ht ha =>
          translateTags_restore cfg (some m0) mark strip hcfg tags0 doc0 hnodup t ht ha⟩
  | some b0 =>
    cases tm0 with
    | none =>
      refine ⟨rfl, rfl, rfl, fun b hb => ?_, rfl, fun _ => ⟨rfl, rfl⟩, fun m hm => ?_⟩
      · cases hb
        rfl
      · exact Option.noConfusion hm
    | some m0 =>
      refine ⟨rfl, rfl, rfl, fun b hb => ?_, rfl, fun h => ?_, fun m hm => ?_⟩
      · cases hb
        rfl
      · exact Option.noConfusion h
      · cases hm
        exact ⟨rfl, fun hcfg hnodup t ht ha =>
          translateTags_restore cfg (some m0) mark strip hcfg tags0 doc0 hnodup t ht ha⟩

/-- Witness for C3 as amended: a concrete update with a loaded dictionary
and a body element; the live entry is restored when the new configuration
disables tag translation. -/
theorem updateConfig_spec_witness :
    (Syringe.updateConfig false id id
        ⟨⟨true, true, true, 1⟩, ⟨true, true, true, 1⟩, some [("k", "VAL")],
          [⟨1, "k", "orig"⟩],
          ⟨fun n => if n = 1 then some 0 else none, fun _ => "X", fun _ => "cmn-Hans"⟩,
          some ⟨[], "en"⟩⟩
        ⟨false, true, false, 1⟩).2.2 = true ∧
    (Syringe.updateConfig false id id
        ⟨⟨true, true, true, 1⟩, ⟨true, true, true, 1⟩, some [("k", "VAL")],
          [⟨1, "k", "orig"⟩],
          ⟨fun n => if n = 1 then some 0 else none, fun _ => "X", fun _ => "cmn-Hans"⟩,
          some ⟨[], "en"⟩⟩
        ⟨false, true, false, 1⟩).1.doc.contentOf 1 = "orig" ∧
    (Syringe.updateConfig false id id
        ⟨⟨true, true, true, 1⟩, ⟨true, true, true, 1⟩, some [("k", "VAL")],
          [⟨1, "k", "orig"⟩],
          ⟨fun n => if n = 1 then some 0 else none, fun _ => "X", fun _ => "cmn-Hans"⟩,
          some ⟨[], "en"⟩⟩
        ⟨false, true, false, 1⟩).1.config = ⟨false, true, false, 1⟩ := by
  have h := updateConfig_spec false id id
    ⟨⟨true, true, true, 1⟩, ⟨true, true, true, 1⟩, some [("k", "VAL")],
      [⟨1, "k", "orig"⟩],
      ⟨fun n => if n = 1 then some 0 else none, fun _ => "X", fun _ => "cmn-Hans"⟩,
      some ⟨[], "en"⟩⟩
    ⟨false, true, false, 1⟩
  refine ⟨h.2.2.2.2.1.trans (by decide), ?_, h.1⟩
  exact (h.2.2.2.2.2.2 [("k", "VAL")] rfl).2 rfl (by decide) ⟨1, "k", "orig"⟩
    (by decide) (by decide) |>.1

/-! ## Claim C4: lemmas about the two date-normalizer scanners -/

/-- Both timestamp shapes begin with a digit, so no match can start at a
non-digit character (first scanner). -/
theorem matchShape1_not_digit (c : Char) (cs : List Char) (h : c.isDigit = false) :
    matchShape1 (c :: cs) = none := by
  simp [matchShape1, h]

/-- Both timestamp shapes begin with a digit, so no match can start at a
non-digit character (second scanner). -/
theorem matchShape2_not_digit (c : Char) (cs : List Char) (h : c.isDigit = false) :
    matchShape2 (c :: cs) = none := by
  simp [matchShape2, h]

/-- The first scanner copies a digit-free prefix unchanged. -/
theorem scan1_append_no_digit (diff : Int → String) (pre : List Char)
    (hpre : ∀ c ∈ pre, c.isDigit = false) :
    ∀ (fuel : Nat) (l : List Char),
      scan1 diff (pre.length + fuel) (pre ++ l) = pre ++ scan1 diff fuel l := by
  induction pre with
  | nil => intro fuel l; simp
  | cons c pre ih =>
    intro fuel l
    have hc : c.isDigit = false := hpre c (by simp)
    have heq : (c :: pre).length + fuel = (pre.length + fuel) + 1 := by
      simp [List.length_cons]
      omega
    rw [heq, List.cons_append]
    show scan1 diff ((pre.length + fuel) + 1) (c :: (pre ++ l)) = _
    rw [scan1, matchShape1_not_digit c _ hc]
    rw [ih (fun x hx => hpre x (by simp [hx])) fuel l]
    rfl

/-- The first scanner leaves a digit-free list unchanged. -/
theorem scan1_no_digit (diff : Int → String) (l : List Char)
    (h : ∀ c ∈ l, c.isDigit = false) :
    ∀ fuel : Nat, scan1 diff fuel l = l := by
  induction l with
  | nil => intro fuel; cases fuel <;> rfl
  | cons c cs ih =>
    intro fuel
    cases fuel with
    | zero => rfl
    | succ fuel =>
      rw [scan1, matchShape1_not_digit c _ (h c (by simp))]
      rw [ih (fun x hx => h x (by simp [hx])) fuel]

/-- The second scanner copies a digit-free prefix unchanged. -/
theorem scan2_append_no_digit (diff : Int → String) (pre : List Char)
    (hpre : ∀ c ∈ pre, c.isDigit = false) :
    ∀ (fuel : Nat) (l : List Char),
      scan2 diff (pre.length + fuel) (pre ++ l) = pre ++ scan2 diff fuel l := by
  induction pre with
  | nil => intro fuel l; simp
  | cons c pre ih =>
    intro fuel l
    have hc : c.isDigit = false := hpre c (by simp)
    have heq : (c :: pre).length + fuel = (pre.length + fuel) + 1 := by
      simp [List.length_cons]
      omega
    rw [heq, List.cons_append]
    show scan2 diff ((pre.length + fuel) + 1) (c :: (pre ++ l)) = _
    rw [scan2, matchShape2_not_digit c _ hc]
    rw [ih (fun x hx => hpre x (by simp [hx])) fuel l]
    rfl

/-- The second scanner leaves a digit-free list unchanged. -/
theorem scan2_no_digit (diff : Int → String) (l : List Char)
    (h : ∀ c ∈ l, c.isDigit = false) :
    ∀ fuel : Nat, scan2 diff fuel l = l := by
  induction l with
  | nil => intro fuel; cases fuel <;> rfl
  | cons c cs ih =>
    intro fuel
    cases fuel with
    | zero => rfl
    | succ fuel =>
      rw [scan2, matchShape2_not_digit c _ (h c (by simp))]
      rw [ih (fun x hx => h x (by simp [hx])) fuel]

/-- The maximal word run of a word-character list followed by a non-word
character is the list's length. -/
theorem wordRun_append (w : List Char) (hw : ∀ c ∈ w, isWordChar c = true)
    (c : Char) (hc : isWordChar c = false) (t : List Char) :
    wordRun (w ++ c :: t) = w.length := by
  induction w with
  | nil => simp [wordRun, hc]
  | cons a w ih =>
    rw [List.cons_append, wordRun]
    simp [hw a (by simp), ih (fun x hx => hw x (by simp [hx]))]

/-- The first shape matches at the head of a list that spells it out,
consuming exactly its 16 characters. -/
theorem matchShape1_at_match (a1 a2 a3 a4 b1 b2 d1 d2 h1 h2 n1 n2 : Char)
    (rest : List Char)
    (hd : (a1.isDigit && a2.isDigit && a3.isDigit && a4.isDigit &&
           b1.isDigit && b2.isDigit && d1.isDigit && d2.isDigit &&
           h1.isDigit && h2.isDigit && n1.isDigit && n2.isDigit) = true) :
    matchShape1 (a1 :: a2 :: a3 :: a4 :: '-' :: b1 :: b2 :: '-' :: d1 :: d2 :: ' ' ::
        h1 :: h2 :: ':' :: n1 :: n2 :: rest) =
      some ([a1, a2, a3, a4, '-', b1, b2, '-', d1, d2, ' ', h1, h2, ':', n1, n2],
            digitsVal4 a1 a2 a3 a4, digitsVal2 b1 b2, digitsVal2 d1 d2,
            digitsVal2 h1 h2, digitsVal2 n1 n2, rest) := by
  have ha1 : a1.isDigit = true := by
    revert hd
    cases a1.isDigit <;> simp
  simp only [Bool.and_eq_true] at hd
  simp [matchShape1, ha1, hd]

/-- The second shape matches at the head of a list that spells it out,
consuming its day digits, month word and `YYYY, HH:MM` tail. -/
theorem matchShape2_at_match (e1 e2 : Char) (w : List Char)
    (y1 y2 y3 y4 f1 f2 g1 g2 : Char) (rest : List Char)
    (he1 : e1.isDigit = true) (he2 : e2.isDigit = true)
    (hw : ∀ c ∈ w, isWordChar c = true) (hlen2 : 2 ≤ w.length) (hlen10 : w.length ≤ 10)
    (hy : (y1.isDigit && y2.isDigit && y3.isDigit && y4.isDigit &&
           f1.isDigit && f2.isDigit && g1.isDigit && g2.isDigit) = true) :
    matchShape2 (e1 :: e2 :: ' ' ::
        (w ++ ' ' :: y1 :: y2 :: y3 :: y4 :: ',' :: ' ' :: f1 :: f2 :: ':' :: g1 :: g2 :: rest)) =
      some (e1 :: e2 :: ' ' :: (w ++ [' ', y1, y2, y3, y4, ',', ' ', f1, f2, ':', g1, g2]),
            w, digitsVal2 e1 e2, digitsVal4 y1 y2 y3 y4,
            digitsVal2 f1 f2, digitsVal2 g1 g2, rest) := by
  have hrun : wordRun (w ++ ' ' :: y1 :: y2 :: y3 :: y4 :: ',' :: ' ' ::
      f1 :: f2 :: ':' :: g1 :: g2 :: rest) = w.length :=
    wordRun_append w hw ' ' (by decide) _
  have hdrop : (w ++ ' ' :: y1 :: y2 :: y3 :: y4 :: ',' :: ' ' ::
      f1 :: f2 :: ':' :: g1 :: g2 :: rest).drop w.length =
      ' ' :: y1 :: y2 :: y3 :: y4 :: ',' :: ' ' :: f1 :: f2 :: ':' :: g1 :: g2 :: rest :=
    List.drop_left w _
  have htake : (w ++ ' ' :: y1 :: y2 :: y3 :: y4 :: ',' :: ' ' ::
      f1 :: f2 :: ':' :: g1 :: g2 :: rest).take w.length = w :=
    List.take_left w _
  simp only [matchShape2, List.headD_cons, he1, if_true, he2, Bool.and_self, hrun,
    hdrop, htake, hy, hlen2, hlen10, and_self, if_true, ite_true]

/-- One step of the first scanner at a spelled-out match. -/
theorem scan1_at_match (diff : Int → String)
    (a1 a2 a3 a4 b1 b2 d1 d2 h1 h2 n1 n2 : Char) (rest : List Char) (fuel : Nat)
    (hd : (a1.isDigit && a2.isDigit && a3.isDigit && a4.isDigit &&
           b1.isDigit && b2.isDigit && d1.isDigit && d2.isDigit &&
           h1.isDigit && h2.isDigit && n1.isDigit && n2.isDigit) = true) :
    scan1 diff (fuel + 1) (a1 :: a2 :: a3 :: a4 :: '-' :: b1 :: b2 :: '-' :: d1 :: d2 :: ' ' ::
        h1 :: h2 :: ':' :: n1 :: n2 :: rest) =
      jsDateRepl1 diff [a1, a2, a3, a4, '-', b1, b2, '-', d1, d2, ' ', h1, h2, ':', n1, n2]
          (digitsVal4 a1 a2 a3 a4) (digitsVal2 b1 b2) (digitsVal2 d1 d2)
          (digitsVal2 h1 h2) (digitsVal2 n1 n2) ++
        scan1 diff fuel rest := by
  rw [scan1, matchShape1_at_match a1 a2 a3 a4 b1 b2 d1 d2 h1 h2 n1 n2 rest hd]

/-- One step of the second scanner at a spelled-out match. -/
theorem scan2_at_match (diff : Int → String) (e1 e2 : Char) (w : List Char)
    (y1 y2 y3 y4 f1 f2 g1 g2 : Char) (rest : List Char) (fuel : Nat)
    (he1 : e1.isDigit = true) (he2 : e2.isDigit = true)
    (hw : ∀ c ∈ w, isWordChar c = true) (hlen2 : 2 ≤ w.length) (hlen10 : w.length ≤ 10)
    (hy : (y1.isDigit && y2.isDigit && y3.isDigit && y4.isDigit &&
           f1.isDigit && f2.isDigit && g1.isDigit && g2.isDigit) = true) :
    scan2 diff (fuel + 1) (e1 :: e2 :: ' ' ::
        (w ++ ' ' :: y1 :: y2 :: y3 :: y4 :: ',' :: ' ' :: f1 :: f2 :: ':' :: g1 :: g2 :: rest)) =
      jsDateRepl2 diff (e1 :: e2 :: ' ' :: (w ++ [' ', y1, y2, y3, y4, ',', ' ', f1, f2, ':', g1, g2]))
          w (digitsVal2 e1 e2) (digitsVal4 y1 y2 y3 y4) (digitsVal2 f1 f2) (digitsVal2 g1 g2) ++
        scan2 diff fuel rest := by
  rw [scan2, matchShape2_at_match e1 e2 w y1 y2 y3 y4 f1 f2 g1 g2 rest he1 he2 hw hlen2 hlen10 hy]

/-- Unfolding of `replaceDates1` over an explicit character list. -/
theorem replaceDates1_mk (diff : Int → String) (l : List Char) :
    Syringe.replaceDates1 diff (String.mk l) = String.mk (scan1 diff l.length l) := rfl

/-- Unfolding of `replaceDates2` over an explicit character list. -/
theorem replaceDates2_mk (diff : Int → String) (l : List Char) :
    Syringe.replaceDates2 diff (String.mk l) = String.mk (scan2 diff l.length l) := rfl

set_option maxHeartbeats 2000000 in
/-- Counterexample to C4: the substring `1970-01-01 00:00` matches the
first timestamp shape and parses to a valid instant — the epoch,
millisecond value `0` — yet the normalizer leaves it unchanged, because
the source's guard `if (!date) return t` treats the number `0` as a
failed parse (JavaScript falsiness), so `translateUiText` reports no
translation where the claim requires the relative-time replacement. -/
theorem dateNormalizer_epoch_cex :
    parseInstant 1970 1 1 0 0 = some 0 ∧
    Syringe.replaceDates1 (fun _ => "2 hours ago") "1970-01-01 00:00" =
      "1970-01-01 00:00" ∧
    Syringe.translateUiText ⟨[], []⟩ (fun _ => "2 hours ago") "1970-01-01 00:00" =
      none ∧
    ("2 hours ago" : String) ≠ "1970-01-01 00:00" := by
  refine ⟨by decide, by decide, by decide, by decide⟩

set_option maxHeartbeats 2000000 in
/-- C4 as amended: in `translateUiText`'s two built-in normalizers
(applied after the pattern rules), every substring matching one of the
two literal timestamp shapes — here exhibited with digit-free context on
both sides, which the scan preserves — is replaced by the external
date-difference function's relative-time string at hour granularity,
EXCEPT that a match whose parse fails (components out of range, unknown
month word) or whose parse yields exactly the zero epoch instant is left
unchanged (the source's JavaScript guard `if (!date)` is true both for
`NaN` and for `0`). -/
theorem dateNormalizers_replace (diff : Int → String) (pre suf : List Char)
    (hpre : ∀ c ∈ pre, c.isDigit = false) (hsuf : ∀ c ∈ suf, c.isDigit = false) :
    (∀ a1 a2 a3 a4 b1 b2 d1 d2 h1 h2 n1 n2 : Char,
      (a1.isDigit && a2.isDigit && a3.isDigit && a4.isDigit &&
       b1.isDigit && b2.isDigit && d1.isDigit && d2.isDigit &&
       h1.isDigit && h2.isDigit && n1.isDigit && n2.isDigit) = true →
      Syringe.replaceDates1 diff (String.mk (pre ++ a1 :: a2 :: a3 :: a4 :: '-' :: b1 :: b2 ::
          '-' :: d1 :: d2 :: ' ' :: h1 :: h2 :: ':' :: n1 :: n2 :: suf)) =
        String.mk (pre ++
          (match parseInstant (digitsVal4 a1 a2 a3 a4) (digitsVal2 b1 b2) (digitsVal2 d1 d2)
              (digitsVal2 h1 h2) (digitsVal2 n1 n2) with
           | none => [a1, a2, a3, a4, '-', b1, b2, '-', d1, d2, ' ', h1, h2, ':', n1, n2]
           | some ms =>
             if ms = 0 then [a1, a2, a3, a4, '-', b1, b2, '-', d1, d2, ' ', h1, h2, ':', n1, n2]
             else (diff ms).toList) ++ suf)) ∧
    (∀ (w : List Char) (e1 e2 y1 y2 y3 y4 f1 f2 g1 g2 : Char),
      (∀ c ∈ w, isWordChar c = true) → 2 ≤ w.length → w.length ≤ 10 →
      e1.isDigit = true → e2.isDigit = true →
      (y1.isDigit && y2.isDigit && y3.isDigit && y4.isDigit &&
       f1.isDigit && f2.isDigit && g1.isDigit && g2.isDigit) = true →
      Syringe.replaceDates2 diff (String.mk (pre ++ e1 :: e2 :: ' ' ::
          (w ++ ' ' :: y1 :: y2 :: y3 :: y4 :: ',' :: ' ' :: f1 :: f2 :: ':' :: g1 :: g2 :: suf))) =
        String.mk (pre ++
          (match monthFromNameL w with
           | none => e1 :: e2 :: ' ' :: (w ++ [' ', y1, y2, y3, y4, ',', ' ', f1, f2, ':', g1, g2])
           | some mo =>
             match parseInstant (digitsVal4 y1 y2 y3 y4) mo (digitsVal2 e1 e2)
                 (digitsVal2 f1 f2) (digitsVal2 g1 g2) with
             | none =>
               e1 :: e2 :: ' ' :: (w ++ [' ', y1, y2, y3, y4, ',', ' ', f1, f2, ':', g1, g2])
             | some ms =>
               if ms = 0 then
                 e1 :: e2 :: ' ' :: (w ++ [' ', y1, y2, y3, y4, ',', ' ', f1, f2, ':', g1, g2])
               else (diff ms).toList) ++ suf)) := by
  constructor
  · intro a1 a2 a3 a4 b1 b2 d1 d2 h1 h2 n1 n2 hd
    rw [replaceDates1_mk]
    have hlen : (pre ++ a1 :: a2 :: a3 :: a4 :: '-' :: b1 :: b2 :: '-' :: d1 :: d2 ::
        ' ' :: h1 :: h2 :: ':' :: n1 :: n2 :: suf).length =
        pre.length + ((15 + suf.length) + 1) := by
      simp [List.length_append, List.length_cons]
      omega
    rw [hlen, scan1_append_no_digit diff pre hpre ((15 + suf.length) + 1)
      (a1 :: a2 :: a3 :: a4 :: '-' :: b1 :: b2 :: '-' :: d1 :: d2 ::
        ' ' :: h1 :: h2 :: ':' :: n1 :: n2 :: suf)]
    rw [scan1_at_match diff a1 a2 a3 a4 b1 b2 d1 d2 h1 h2 n1 n2 suf (15 + suf.length) hd]
    rw [scan1_no_digit diff suf hsuf (15 + suf.length)]
    simp only [jsDateRepl1, List.append_assoc]
  · intro w e1 e2 y1 y2 y3 y4 f1 f2 g1 g2 hw hlen2 hlen10 he1 he2 hy
    rw [replaceDates2_mk]
    have hlen : (pre ++ e1 :: e2 :: ' ' ::
        (w ++ ' ' :: y1 :: y2 :: y3 :: y4 :: ',' :: ' ' :: f1 :: f2 :: ':' :: g1 :: g2 :: suf)).length =
        pre.length + ((14 + w.length + suf.length) + 1) := by
      simp [List.length_append, List.length_cons]
      omega
    rw [hlen, scan2_append_no_digit diff pre hpre ((14 + w.length + suf.length) + 1)
      (e1 :: e2 :: ' ' ::
        (w ++ ' ' :: y1 :: y2 :: y3 :: y4 :: ',' :: ' ' :: f1 :: f2 :: ':' :: g1 :: g2 :: suf))]
    rw [scan2_at_match diff e1 e2 w y1 y2 y3 y4 f1 f2 g1 g2 suf (14 + w.length + suf.length)
      he1 he2 hw hlen2 hlen10 hy]
    rw [scan2_no_digit diff suf hsuf (14 + w.length + suf.length)]
    simp only [jsDateRepl2, List.append_assoc]

/-- Witness for C4 as amended: both normalizers at concrete inputs, one
replaced with the formatter's output, preserving the digit-free
context. -/
theorem dateNormalizers_replace_witness :
    Syringe.replaceDates1 (fun _ => "3 天前") (String.mk
        (['u', ' '] ++ '2' :: '0' :: '2' :: '4' :: '-' :: '0' :: '5' :: '-' :: '0' :: '6' ::
          ' ' :: '1' :: '2' :: ':' :: '3' :: '0' :: [' ', 'x'])) =
      String.mk (['u', ' '] ++
        (match parseInstant (digitsVal4 '2' '0' '2' '4') (digitsVal2 '0' '5')
            (digitsVal2 '0' '6') (digitsVal2 '1' '2') (digitsVal2 '3' '0') with
         | none => ['2', '0', '2', '4', '-', '0', '5', '-', '0', '6', ' ', '1', '2', ':', '3', '0']
         | some ms =>
           if ms = 0 then
             ['2', '0', '2', '4', '-', '0', '5', '-', '0', '6', ' ', '1', '2', ':', '3', '0']
           else ((fun (_ : Int) => "3 天前") ms).toList) ++ [' ', 'x']) ∧
    Syringe.replaceDates2 (fun _ => "3 天前") (String.mk
        (['u', ' '] ++ '0' :: '1' :: ' ' ::
          (['J', 'u', 'n', 'e'] ++ ' ' :: '2' :: '0' :: '2' :: '3' :: ',' :: ' ' ::
            '1' :: '0' :: ':' :: '0' :: '0' :: [' ', 'x']))) =
      String.mk (['u', ' '] ++
        (match monthFromNameL ['J', 'u', 'n', 'e'] with
         | none => '0' :: '1' :: ' ' :: (['J', 'u', 'n', 'e'] ++
             [' ', '2', '0', '2', '3', ',', ' ', '1', '0', ':', '0', '0'])
         | some mo =>
           match parseInstant (digitsVal4 '2' '0' '2' '3') mo (digitsVal2 '0' '1')
               (digitsVal2 '1' '0') (digitsVal2 '0' '0') with
           | none => '0' :: '1' :: ' ' :: (['J', 'u', 'n', 'e'] ++
               [' ', '2', '0', '2', '3', ',', ' ', '1', '0', ':', '0', '0'])
           | some ms =>
             if ms = 0 then '0' :: '1' :: ' ' :: (['J', 'u', 'n', 'e'] ++
                 [' ', '2', '0', '2', '3', ',', ' ', '1', '0', ':', '0', '0'])
             else ((fun (_ : Int) => "3 天前") ms).toList) ++ [' ', 'x']) := by
  constructor
  · exact (dateNormalizers_replace (fun _ => "3 天前") ['u', ' '] [' ', 'x']
      (by decide) (by decide)).1 '2' '0' '2' '4' '0' '5' '0' '6' '1' '2' '3' '0' (by decide)
  · exact (dateNormalizers_replace (fun _ => "3 天前") ['u', ' '] [' ', 'x']
      (by decide) (by decide)).2 ['J', 'u', 'n', 'e'] '0' '1' '2' '0' '2' '3' '1' '0' '0' '0'
      (by decide) (by decide) (by decide) (by decide) (by decide) (by decide)

end EhSyringe
